import Mathlib

/-!
Verification of the data-analysis pipeline of the DailyInvestmentIdeas repository
(src/DailyInvestmentIdeas/src/analyze_data.py), as a shallow embedding in Lean 4.

Modelling conventions, stated once here:

* A daily bar is modelled by its date (a natural number; only the order of dates
  matters to the source, which sorts by date) and its close price as a rational.
  The open/high/low/volume columns are not consumed by any property verified
  below (the source reads them only for the volatility / max-drawdown / volume
  metrics, which involve a floating-point standard deviation and are examined by
  no claim), so they are not carried in the embedding.
* Python floats are modelled by `Rat`.  The two places where IEEE-754 special
  values influence control flow are modelled explicitly and are commented at
  their definitions (`rsiLatest`, where an average loss of zero makes the
  relative strength +inf or NaN, and the Bollinger band width, where a zero
  width makes the unguarded division produce NaN).
* A Python dict is modelled by an association list whose keys are unique
  (Python dict keys are unique; theorems that need it take a `Nodup`
  hypothesis), and dict iteration order is the list order (CPython dicts
  iterate in insertion order).
* "unavailable" values (Python `None`, produced by the `pd.notna` guards) are
  modelled by `Option.none`.
* The 20-bar rolling standard deviation (`df['Close'].rolling(20).std()`,
  analyze_data.py line 313) is a floating-point square root of the sample
  variance.  The embedding is parametric in the square-root function
  `sqrtQ : Rat → Rat`; no verified property depends on its values except
  through hypotheses stated in the theorems, and concrete instantiations in
  witnesses use values consistent with the real square root at the inputs used
  (in particular the sample variance of a constant window is exactly 0, and
  IEEE sqrt(0) = 0).
-/

/-- Last `n` elements of a list: `pandas.DataFrame.tail(n)` (analyze_data.py line 201). -/
def lastN (n : Nat) (l : List α) : List α := l.drop (l.length - n)

/-- Stable insertion of `x` into a list ordered by `le` (placed before the first
element it compares `le` to). -/
def insertBy (le : α → α → Bool) (x : α) : List α → List α
  | [] => [x]
  | y :: ys => if le x y then x :: y :: ys else y :: insertBy le x ys

/-- Stable insertion sort; models `DataFrame.sort_index` / Python `sorted`
(both stable). -/
def sortBy (le : α → α → Bool) : List α → List α
  | [] => []
  | x :: xs => insertBy le x (sortBy le xs)

/-- Python dict access by key over an association list. -/
def lookupKey (t : String) : List (String × β) → Option β
  | [] => none
  | (s, b) :: rest => if s = t then some b else lookupKey t rest

/-- `max(items, key=f)` in CPython keeps the first maximal element: the running
best is replaced only when a strictly greater key appears.  `gt y b` means
"the key of `y` is strictly greater than the key of `b`". -/
def firstMaxBy (gt : α → α → Bool) : List α → Option α
  | [] => none
  | x :: xs => some (xs.foldl (fun best y => if gt y best then y else best) x)

/-- One OHLCV bar, reduced to the fields the verified properties consume
(see the module comment). -/
structure Bar where
  date : Nat
  close : Rat
deriving DecidableEq

/-- `df.sort_index()` after indexing by date (analyze_data.py lines 196-198). -/
def sortBars (l : List Bar) : List Bar :=
  sortBy (fun a b => decide (a.date ≤ b.date)) l

/-- The per-instrument performance metrics returned by
`DataAnalyzer.analyze_stock_performance` (analyze_data.py lines 212-220),
restricted to the fields examined by the claims.  The `volatility`,
`max_drawdown`, `volume_change` and `avg_volume` entries of the source dict
are not modelled: no verified property mentions them and `volatility` is a
floating-point standard deviation. -/
structure Perf where
  ret : Rat
  latest_close : Rat
  is_uptrend : Bool
deriving DecidableEq

/-- Per-instrument body of `analyze_stock_performance` (analyze_data.py lines
189-220): sort by date, take the trailing `period` bars, skip the instrument
(`none`) when the history is missing/empty (line 190) or shorter than `period`
(lines 202-203).  The wildcard fallthrough models `period = 0`, where
`recent['Close'].iloc[0]` raises IndexError and the per-ticker handler at line
222 skips the instrument. -/
def perfOf (history : List Bar) (period : Nat) : Option Perf :=
  let recent := lastN period (sortBars history)
  if recent.length < period then none
  else
    match recent.head?, recent.getLast? with
    | some a, some b =>
        some { ret := (b.close - a.close) / a.close * 100
               latest_close := b.close
               is_uptrend := decide (a.close < b.close) }
    | _, _ => none

/-- One entry of a per-market stock dict: the `history` list and
`info.sector` (`none` when the key is absent; the source then substitutes
"Unknown").  A missing or empty `history` is modelled by the empty list;
both are skipped identically at analyze_data.py line 190/280. -/
structure StockEntry where
  history : List Bar
  sector : Option String
deriving DecidableEq

/-- `DataAnalyzer.analyze_stock_performance` (analyze_data.py lines 176-225)
over a dict of instruments: instruments whose `perfOf` is skipped are silently
omitted from the resulting mapping.  The function is total: every exception
path of the source body is one of the skips modelled inside `perfOf`. -/
def analyze_stock_performance (stockData : List (String × StockEntry)) (period : Nat) :
    List (String × Perf) :=
  stockData.filterMap (fun p => (perfOf p.2.history period).map (fun m => (p.1, m)))

theorem length_insertBy (le : α → α → Bool) (x : α) (l : List α) :
    (insertBy le x l).length = l.length + 1 := by
  induction l with
  | nil => rfl
  | cons y ys ih =>
      simp only [insertBy]
      split <;> simp [ih]

theorem length_sortBy (le : α → α → Bool) (l : List α) :
    (sortBy le l).length = l.length := by
  induction l with
  | nil => rfl
  | cons x xs ih => simp [sortBy, length_insertBy, ih]

theorem length_sortBars (l : List Bar) : (sortBars l).length = l.length :=
  length_sortBy _ l

theorem length_lastN (n : Nat) (l : List α) :
    (lastN n l).length = l.length - (l.length - n) := by
  simp [lastN]

section Lookup

variable {A B : Type}

theorem lookupKey_filterMap_of_not_mem (l : List (String × A)) (g : A → Option B)
    (t : String) (h : t ∉ l.map Prod.fst) :
    lookupKey t (l.filterMap (fun p => (g p.2).map (fun b => (p.1, b)))) = none := by
  induction l with
  | nil => rfl
  | cons p rest ih =>
      simp only [List.map_cons, List.mem_cons, not_or] at h
      cases hg : g p.2 with
      | none =>
          simp only [List.filterMap_cons, hg, Option.map_none']
          exact ih h.2
      | some b =>
          simp only [List.filterMap_cons, hg, Option.map_some']
          rw [lookupKey, if_neg (fun hc => h.1 hc.symm)]
          exact ih h.2

theorem lookupKey_filterMap (l : List (String × A)) (g : A → Option B) (t : String) (a : A)
    (hnd : (l.map Prod.fst).Nodup) (hmem : (t, a) ∈ l) :
    lookupKey t (l.filterMap (fun p => (g p.2).map (fun b => (p.1, b)))) = g a := by
  induction l with
  | nil => simp at hmem
  | cons p rest ih =>
      obtain ⟨s, x⟩ := p
      simp only [List.map_cons, List.nodup_cons] at hnd
      rcases List.mem_cons.1 hmem with heq | htail
      · have hts : t = s := congrArg Prod.fst heq
        have hax : a = x := congrArg Prod.snd heq
        subst hts hax
        cases hg : g a with
        | none =>
            simp only [List.filterMap_cons, hg, Option.map_none']
            exact lookupKey_filterMap_of_not_mem rest g t hnd.1
        | some b =>
            simp only [List.filterMap_cons, hg, Option.map_some']
            rw [lookupKey, if_pos rfl]
      · have hst : s ≠ t := by
          intro hc
          exact hnd.1 (hc ▸ List.mem_map_of_mem Prod.fst htail)
        cases hg : g x with
        | none =>
            simp only [List.filterMap_cons, hg, Option.map_none']
            exact ih hnd.2 htail
        | some b =>
            simp only [List.filterMap_cons, hg, Option.map_some']
            rw [lookupKey, if_neg hst]
            exact ih hnd.2 htail

end Lookup

theorem perfOf_eq_some (history : List Bar) (period : Nat) (a : Bar) (ta : List Bar)
    (hcons : lastN period (sortBars history) = a :: ta)
    (hge : ¬ (a :: ta).length < period) :
    perfOf history period =
      some { ret := (((a :: ta).getLast (List.cons_ne_nil a ta)).close - a.close)
                      / a.close * 100
             latest_close := ((a :: ta).getLast (List.cons_ne_nil a ta)).close
             is_uptrend :=
               decide (a.close < ((a :: ta).getLast (List.cons_ne_nil a ta)).close) } := by
  simp only [perfOf, hcons, if_neg hge, List.head?_cons,
    List.getLast?_eq_getLast (a :: ta) (List.cons_ne_nil a ta)]

theorem perfOf_eq_none_iff (history : List Bar) (period : Nat) (hp : 1 ≤ period) :
    perfOf history period = none ↔ history.length < period := by
  have hL : (lastN period (sortBars history)).length
      = history.length - (history.length - period) := by
    rw [length_lastN, length_sortBars]
  rcases Nat.lt_or_ge history.length period with hlt | hge
  · have hcond : (lastN period (sortBars history)).length < period := by omega
    simp only [perfOf, if_pos hcond]
    simpa using hlt
  · have hlen : (lastN period (sortBars history)).length = period := by omega
    have hne : lastN period (sortBars history) ≠ [] := by
      intro hc
      rw [hc] at hlen
      simp at hlen
      omega
    obtain ⟨a, ta, hcons⟩ := List.exists_cons_of_ne_nil hne
    have hge2 : ¬ (a :: ta).length < period := by
      rw [← hcons, hlen]
      omega
    rw [perfOf_eq_some history period a ta hcons hge2]
    simp
    omega

/-- C1: for a series with at least `period` bars, `analyze_stock_performance`
returns metrics with
`return = (close[-1] - close[window_start]) / close[window_start] * 100` and
`is_uptrend = (close[-1] > close[window_start])`, computed over the trailing
`period` bars of the date-sorted series (analyze_data.py lines 201-220). -/
theorem perf_return_formula (history : List Bar) (period : Nat)
    (h1 : 1 ≤ period) (h2 : period ≤ history.length) :
    ∃ a b m,
      (lastN period (sortBars history)).head? = some a ∧
      (lastN period (sortBars history)).getLast? = some b ∧
      perfOf history period = some m ∧
      m.ret = (b.close - a.close) / a.close * 100 ∧
      m.is_uptrend = decide (a.close < b.close) ∧
      m.latest_close = b.close := by
  have hL : (lastN period (sortBars history)).length
      = history.length - (history.length - period) := by
    rw [length_lastN, length_sortBars]
  have hlen : (lastN period (sortBars history)).length = period := by omega
  have hne : lastN period (sortBars history) ≠ [] := by
    intro hc
    rw [hc] at hlen
    simp at hlen
    omega
  obtain ⟨a, ta, hcons⟩ := List.exists_cons_of_ne_nil hne
  have hge2 : ¬ (a :: ta).length < period := by
    rw [← hcons, hlen]
    omega
  refine ⟨a, (a :: ta).getLast (List.cons_ne_nil a ta), _, ?_, ?_,
    perfOf_eq_some history period a ta hcons hge2, rfl, ?_, rfl⟩
  · rw [hcons, List.head?_cons]
  · rw [hcons, List.getLast?_eq_getLast (a :: ta) (List.cons_ne_nil a ta)]
  · rfl

/-- The 7-bar series of the spec's first scenario, with strictly increasing dates. -/
def exSeries7 : List Bar :=
  [⟨1, 100⟩, ⟨2, 102⟩, ⟨3, 101⟩, ⟨4, 105⟩, ⟨5, 103⟩, ⟨6, 107⟩, ⟨7, 110⟩]

/-- Witness for C1 at the spec's scenario: closes `[100,102,101,105,103,107,110]`,
period 7, give `return = 10`, `is_uptrend = true`. -/
theorem perf_return_formula_witness :
    (∃ a b m,
      (lastN 7 (sortBars exSeries7)).head? = some a ∧
      (lastN 7 (sortBars exSeries7)).getLast? = some b ∧
      perfOf exSeries7 7 = some m ∧
      m.ret = (b.close - a.close) / a.close * 100 ∧
      m.is_uptrend = decide (a.close < b.close) ∧
      m.latest_close = b.close) ∧
    perfOf exSeries7 7 = some ⟨10, 110, true⟩ :=
  ⟨perf_return_formula exSeries7 7 (by decide) (by decide),
   by norm_num [perfOf, lastN, sortBars, sortBy, insertBy, exSeries7]⟩

/-- C9: an instrument whose date-sorted series has fewer than `period` bars is
silently omitted from the mapping returned by `analyze_stock_performance`
(no error, no partial entry; analyze_data.py lines 201-203), while instruments
with at least `period` bars remain.  Totality of the embedded function models
"raises no error". -/
theorem perf_short_series_omitted (stockData : List (String × StockEntry))
    (period : Nat) (t : String) (e : StockEntry)
    (hnd : (stockData.map Prod.fst).Nodup) (hmem : (t, e) ∈ stockData)
    (hp : 1 ≤ period) :
    lookupKey t (analyze_stock_performance stockData period) = none ↔
      e.history.length < period := by
  have h := lookupKey_filterMap stockData (fun d => perfOf d.history period) t e hnd hmem
  unfold analyze_stock_performance
  rw [h]
  exact perfOf_eq_none_iff e.history period hp

/-- Concrete stock dict for the C9 witness: "SHORT" has 3 bars, "LONG" has 7. -/
def exStockData9 : List (String × StockEntry) :=
  [("SHORT", ⟨[⟨1, 10⟩, ⟨2, 11⟩, ⟨3, 12⟩], none⟩),
   ("LONG", ⟨exSeries7, none⟩)]

/-- Witness for C9: with period 7, the 3-bar instrument is omitted and the
7-bar instrument remains. -/
theorem perf_short_series_omitted_witness :
    (lookupKey "SHORT" (analyze_stock_performance exStockData9 7) = none ↔
      ([⟨1, 10⟩, ⟨2, 11⟩, ⟨3, 12⟩] : List Bar).length < 7) ∧
    lookupKey "SHORT" (analyze_stock_performance exStockData9 7) = none ∧
    ¬ lookupKey "LONG" (analyze_stock_performance exStockData9 7) = none := by
  have hS := perf_short_series_omitted exStockData9 7 "SHORT"
    ⟨[⟨1, 10⟩, ⟨2, 11⟩, ⟨3, 12⟩], none⟩ (by decide) (by decide) (by decide)
  have hL := perf_short_series_omitted exStockData9 7 "LONG"
    ⟨exSeries7, none⟩ (by decide) (by simp [exStockData9]) (by decide)
  refine ⟨hS, hS.mpr (by decide), fun hc => ?_⟩
  have := hL.mp hc
  simp [exSeries7] at this

/-- Consecutive close-to-close differences: `df['Close'].diff()` without the
leading NaN row (analyze_data.py line 299). -/
def deltasOf : List Rat → List Rat
  | [] => []
  | [_] => []
  | a :: b :: rest => (b - a) :: deltasOf (b :: rest)

/-- Rolling-window mean evaluated at the latest bar: the mean of the last `n`
values. -/
def mean (l : List Rat) : Rat := l.sum / (l.length : Rat)

/-- Sample variance (`ddof = 1`, the pandas `rolling(...).std()` convention)
of a window. -/
def sampleVar (l : List Rat) : Rat :=
  ((l.map (fun x => (x - mean l) ^ 2)).sum) / ((l.length : Rat) - 1)

/-- `Series.ewm(span=span, adjust=False).mean()` (analyze_data.py lines
306-309): the exponential recurrence `y_t = y_{t-1} + α (x_t - y_{t-1})` with
`α = 2/(span+1)`, seeded with the first value. -/
def emaSeries (span : Nat) : List Rat → List Rat
  | [] => []
  | x :: xs => List.scanl (fun acc y => acc + (2 / ((span : Nat) + 1 : Rat)) * (y - acc)) x xs

/-- `MACD = EMA12(close) - EMA26(close)` as a series (analyze_data.py line 308). -/
def macdSeries (closes : List Rat) : List Rat :=
  List.zipWith (fun a b => a - b) (emaSeries 12 closes) (emaSeries 26 closes)

/-- The MACD value at the latest bar. -/
def macdVal (closes : List Rat) : Rat := (macdSeries closes).getLastD 0

/-- Signal line (EMA9 of the MACD series, analyze_data.py line 309) at the
latest bar. -/
def signalVal (closes : List Rat) : Rat := (emaSeries 9 (macdSeries closes)).getLastD 0

/-- The latest close (`df.iloc[-1]['Close']`); the default is never reached at
the call sites, which guarantee a nonempty series. -/
def latestClose (l : List Rat) : Rat := l.getLastD 0

/-- `delta.where(delta > 0, 0)` (analyze_data.py line 300).  The leading NaN of
`diff()` fails the `> 0` test, so `.where` replaces it by 0: the gain series
starts with a literal 0. -/
def gainsOf (closes : List Rat) : List Rat :=
  0 :: (deltasOf closes).map (fun d => if 0 < d then d else 0)

/-- `(-delta.where(delta < 0, 0))` (analyze_data.py line 301): absolute values
of the negative deltas, leading NaN replaced by 0 as in `gainsOf`. -/
def lossesOf (closes : List Rat) : List Rat :=
  0 :: (deltasOf closes).map (fun d => if d < 0 then -d else 0)

/-- The 14-bar rolling means of gains and losses at the latest bar
(analyze_data.py lines 300-301); `none` when fewer than 14 rows exist, where
the rolling window is NaN and the `pd.notna` guard at line 323 reports
unavailable. -/
def avgGainLoss (closes : List Rat) : Option (Rat × Rat) :=
  if 14 ≤ (gainsOf closes).length then
    some (mean (lastN 14 (gainsOf closes)), mean (lastN 14 (lossesOf closes)))
  else none

/-- RSI at the latest bar: `RS = gain/loss`, `RSI = 100 - 100/(1+RS)`
(analyze_data.py lines 302-303), with the IEEE-754 special cases of the float
division made explicit: when the average loss is 0 and the average gain is
positive, `RS = +inf` and `RSI = 100 - 100/inf = 100`; when both averages are
0, `RS = 0/0 = NaN`, `RSI = NaN`, and the `pd.notna` guard at line 323 reports
unavailable (`none`). -/
def rsiLatest (closes : List Rat) : Option Rat :=
  match avgGainLoss closes with
  | none => none
  | some (g, l) =>
      if l = 0 then (if g = 0 then none else some 100)
      else some (100 - 100 / (1 + g / l))

/-- The close column of the date-sorted series. -/
def closesOf (history : List Bar) : List Rat := (sortBars history).map Bar.close

/-- 20-bar middle Bollinger band (analyze_data.py line 312). -/
def middleBand (closes : List Rat) : Rat := mean (lastN 20 closes)

/-- 20-bar rolling standard deviation at the latest bar (analyze_data.py line
313), parametric in the square-root function (see the module comment). -/
def stdDev20 (sqrtQ : Rat → Rat) (closes : List Rat) : Rat :=
  sqrtQ (sampleVar (lastN 20 closes))

/-- Upper Bollinger band: middle + 2 std (analyze_data.py line 314). -/
def upperBand (sqrtQ : Rat → Rat) (closes : List Rat) : Rat :=
  middleBand closes + stdDev20 sqrtQ closes * 2

/-- Lower Bollinger band: middle - 2 std (analyze_data.py line 315). -/
def lowerBand (sqrtQ : Rat → Rat) (closes : List Rat) : Rat :=
  middleBand closes - stdDev20 sqrtQ closes * 2

/-- The per-ticker dict returned by `analyze_technical_indicators`
(analyze_data.py lines 320-327); `none` models the `None` produced when a
`pd.notna` guard fails. -/
structure TechInd where
  price_vs_sma20 : Option Rat
  price_vs_sma50 : Option Rat
  rsi : Option Rat
  macd : Option Rat
  macd_signal : Option Rat
  bb_position : Option Rat
deriving DecidableEq

/-- Per-instrument body of `analyze_technical_indicators` (analyze_data.py
lines 279-327): skip entirely (`none`) below 20 bars (line 290); otherwise the
latest values of each indicator.  With at least 20 bars the SMA20, MACD,
signal and both Bollinger bands are non-NaN, so their `pd.notna` guards pass:
in particular `bb_position` is always the computed quotient (line 326), even
when the band width is zero (where the float division yields NaN — not the
`None` sentinel).  SMA50 is NaN below 50 bars, so `price_vs_sma50` is `none`
there (line 322). -/
def techOf (sqrtQ : Rat → Rat) (history : List Bar) : Option TechInd :=
  let closes := closesOf history
  if closes.length < 20 then none
  else some
    { price_vs_sma20 := some ((latestClose closes / mean (lastN 20 closes) - 1) * 100)
      price_vs_sma50 :=
        if 50 ≤ closes.length then
          some ((latestClose closes / mean (lastN 50 closes) - 1) * 100)
        else none
      rsi := rsiLatest closes
      macd := some (macdVal closes)
      macd_signal := some (signalVal closes)
      bb_position := some ((latestClose closes - lowerBand sqrtQ closes) /
        (upperBand sqrtQ closes - lowerBand sqrtQ closes)) }

/-- `DataAnalyzer.analyze_technical_indicators` (analyze_data.py lines 267-332)
over a dict of instruments. -/
def analyze_technical_indicators (sqrtQ : Rat → Rat)
    (stockData : List (String × StockEntry)) : List (String × TechInd) :=
  stockData.filterMap (fun p => (techOf sqrtQ p.2.history).map (fun ti => (p.1, ti)))

theorem length_closesOf (history : List Bar) : (closesOf history).length = history.length := by
  simp [closesOf, length_sortBars]

theorem techOf_spec (sqrtQ : Rat → Rat) (history : List Bar)
    (hlen : 20 ≤ history.length) :
    techOf sqrtQ history = some
    { price_vs_sma20 := some ((latestClose (closesOf history) /
        mean (lastN 20 (closesOf history)) - 1) * 100)
      price_vs_sma50 :=
        if 50 ≤ (closesOf history).length then
          some ((latestClose (closesOf history) / mean (lastN 50 (closesOf history)) - 1) * 100)
        else none
      rsi := rsiLatest (closesOf history)
      macd := some (macdVal (closesOf history))
      macd_signal := some (signalVal (closesOf history))
      bb_position := some ((latestClose (closesOf history) - lowerBand sqrtQ (closesOf history)) /
        (upperBand sqrtQ (closesOf history) - lowerBand sqrtQ (closesOf history))) } := by
  have hc : ¬ (closesOf history).length < 20 := by
    rw [length_closesOf]
    omega
  simp only [techOf, if_neg hc]

theorem techOf_len_ge (sqrtQ : Rat → Rat) (history : List Bar) (ti : TechInd)
    (h : techOf sqrtQ history = some ti) : 20 ≤ history.length := by
  by_contra hc
  push_neg at hc
  have hlt : (closesOf history).length < 20 := by
    rw [length_closesOf]
    omega
  simp only [techOf, if_pos hlt] at h
  exact Option.noConfusion h

theorem techOf_rsi (sqrtQ : Rat → Rat) (history : List Bar) (ti : TechInd)
    (h : techOf sqrtQ history = some ti) : ti.rsi = rsiLatest (closesOf history) := by
  have hlen := techOf_len_ge sqrtQ history ti h
  rw [techOf_spec sqrtQ history hlen] at h
  have := Option.some.inj h
  rw [← this]

theorem techOf_bb (sqrtQ : Rat → Rat) (history : List Bar) (ti : TechInd)
    (h : techOf sqrtQ history = some ti) :
    ti.bb_position = some ((latestClose (closesOf history) - lowerBand sqrtQ (closesOf history)) /
      (upperBand sqrtQ (closesOf history) - lowerBand sqrtQ (closesOf history))) := by
  have hlen := techOf_len_ge sqrtQ history ti h
  rw [techOf_spec sqrtQ history hlen] at h
  have := Option.some.inj h
  rw [← this]

/-- C6: below 20 bars no indicator entry is produced at all; with at least 20
bars an entry exists, and SMA50-derived output is `none` (not zero) when the
series is shorter than the 50-bar lookback (analyze_data.py lines 290, 296,
322). -/
theorem tech_indicators_availability (sqrtQ : Rat → Rat)
    (stockData : List (String × StockEntry)) (t : String) (e : StockEntry)
    (hnd : (stockData.map Prod.fst).Nodup) (hmem : (t, e) ∈ stockData) :
    (e.history.length < 20 →
      lookupKey t (analyze_technical_indicators sqrtQ stockData) = none) ∧
    (20 ≤ e.history.length →
      ∃ ti, lookupKey t (analyze_technical_indicators sqrtQ stockData) = some ti ∧
        (e.history.length < 50 → ti.price_vs_sma50 = none ∧ ti.price_vs_sma50 ≠ some 0)) := by
  have hl := lookupKey_filterMap stockData (fun d => techOf sqrtQ d.history) t e hnd hmem
  unfold analyze_technical_indicators
  rw [hl]
  simp only []
  constructor
  · intro h20
    have hlt : (closesOf e.history).length < 20 := by
      rw [length_closesOf]
      omega
    simp only [techOf, if_pos hlt]
  · intro h20
    rw [techOf_spec sqrtQ e.history h20]
    refine ⟨_, rfl, fun h50 => ?_⟩
    have hnot : ¬ 50 ≤ (closesOf e.history).length := by
      rw [length_closesOf]
      omega
    constructor
    · simp only [if_neg hnot]
    · simp only [if_neg hnot]
      intro hc
      exact Option.noConfusion hc

/-- 25 constant bars (for the C6 witness: SMA20 defined, SMA50 not). -/
def bars25 : List Bar := (List.range 25).map (fun i => ⟨i, 100⟩)

/-- 10 constant bars (for the C6 witness: below the 20-bar minimum). -/
def bars10 : List Bar := (List.range 10).map (fun i => ⟨i, 100⟩)

/-- Stock dict for the C6 witness. -/
def exStockData6 : List (String × StockEntry) :=
  [("A", ⟨bars25, none⟩), ("B", ⟨bars10, none⟩)]

/-- Witness for C6: the 10-bar instrument gets no indicator entry; the 25-bar
instrument gets one whose `price_vs_sma50` is `none`. -/
theorem tech_indicators_availability_witness :
    lookupKey "B" (analyze_technical_indicators (fun _ => (0 : Rat)) exStockData6) = none ∧
    (∃ ti, lookupKey "A" (analyze_technical_indicators (fun _ => (0 : Rat)) exStockData6) =
        some ti ∧
      (bars25.length < 50 → ti.price_vs_sma50 = none ∧ ti.price_vs_sma50 ≠ some 0)) :=
  ⟨(tech_indicators_availability (fun _ => (0 : Rat)) exStockData6 "B" ⟨bars10, none⟩
      (by decide) (by decide)).1 (by decide),
   (tech_indicators_availability (fun _ => (0 : Rat)) exStockData6 "A" ⟨bars25, none⟩
      (by decide) (by decide)).2 (by decide)⟩

theorem mean_nonneg_of_nonneg (l : List Rat) (h : ∀ x ∈ l, 0 ≤ x) : 0 ≤ mean l := by
  unfold mean
  exact div_nonneg (List.sum_nonneg h) (Nat.cast_nonneg _)

theorem gainsOf_nonneg (closes : List Rat) : ∀ x ∈ gainsOf closes, 0 ≤ x := by
  intro x hx
  rcases List.mem_cons.1 hx with h | h
  · simp [h]
  · obtain ⟨d, _, rfl⟩ := List.mem_map.1 h
    split
    · linarith
    · exact le_refl 0

theorem lossesOf_nonneg (closes : List Rat) : ∀ x ∈ lossesOf closes, 0 ≤ x := by
  intro x hx
  rcases List.mem_cons.1 hx with h | h
  · simp [h]
  · obtain ⟨d, _, rfl⟩ := List.mem_map.1 h
    split
    · linarith
    · exact le_refl 0

theorem avgGainLoss_nonneg (closes : List Rat) (g l : Rat)
    (h : avgGainLoss closes = some (g, l)) : 0 ≤ g ∧ 0 ≤ l := by
  unfold avgGainLoss at h
  split at h
  · have hp := Option.some.inj h
    have hg : mean (lastN 14 (gainsOf closes)) = g := congrArg Prod.fst hp
    have hl : mean (lastN 14 (lossesOf closes)) = l := congrArg Prod.snd hp
    constructor
    · rw [← hg]
      exact mean_nonneg_of_nonneg _ (fun x hx =>
        gainsOf_nonneg closes x (List.drop_subset _ _ hx))
    · rw [← hl]
      exact mean_nonneg_of_nonneg _ (fun x hx =>
        lossesOf_nonneg closes x (List.drop_subset _ _ hx))
  · exact Option.noConfusion h

theorem rsiLatest_bounds (closes : List Rat) (v : Rat)
    (h : rsiLatest closes = some v) : 0 ≤ v ∧ v ≤ 100 := by
  unfold rsiLatest at h
  cases havg : avgGainLoss closes with
  | none =>
      rw [havg] at h
      simp at h
  | some p =>
      obtain ⟨g, l⟩ := p
      rw [havg] at h
      dsimp only at h
      obtain ⟨hg0, hl0⟩ := avgGainLoss_nonneg closes g l havg
      by_cases hl : l = 0
      · rw [if_pos hl] at h
        by_cases hgz : g = 0
        · rw [if_pos hgz] at h
          exact Option.noConfusion h
        · rw [if_neg hgz] at h
          have hv := Option.some.inj h
          constructor
          · rw [← hv]; norm_num
          · rw [← hv]
      · rw [if_neg hl] at h
        have hv := Option.some.inj h
        have hlpos : 0 < l := lt_of_le_of_ne hl0 (Ne.symm hl)
        have hratio : 0 ≤ g / l := div_nonneg hg0 (le_of_lt hlpos)
        have h1 : (0 : Rat) < 1 + g / l := by linarith
        have h2 : 100 / (1 + g / l) ≤ 100 := div_le_self (by norm_num) (by linarith)
        have h3 : 0 < 100 / (1 + g / l) := div_pos (by norm_num) h1
        constructor
        · rw [← hv]; linarith
        · rw [← hv]; linarith

/-- C5: whenever the RSI14 value at the latest bar is defined (not reported
unavailable), it lies in [0, 100] (analyze_data.py lines 299-303, 323). -/
theorem rsi_defined_in_range (sqrtQ : Rat → Rat) (history : List Bar) (ti : TechInd)
    (v : Rat) (h1 : techOf sqrtQ history = some ti) (h2 : ti.rsi = some v) :
    0 ≤ v ∧ v ≤ 100 := by
  rw [techOf_rsi sqrtQ history ti h1] at h2
  exact rsiLatest_bounds (closesOf history) v h2

/-- 20-bar series for the C5 witness: 19 flat closes then a jump, so the
average loss is 0, the average gain is positive, and RSI is exactly 100 (the
`RS = +inf` branch of the float division). -/
def exHist5 : List Bar :=
  [⟨1, 100⟩, ⟨2, 100⟩, ⟨3, 100⟩, ⟨4, 100⟩, ⟨5, 100⟩, ⟨6, 100⟩, ⟨7, 100⟩,
   ⟨8, 100⟩, ⟨9, 100⟩, ⟨10, 100⟩, ⟨11, 100⟩, ⟨12, 100⟩, ⟨13, 100⟩, ⟨14, 100⟩,
   ⟨15, 100⟩, ⟨16, 100⟩, ⟨17, 100⟩, ⟨18, 100⟩, ⟨19, 100⟩, ⟨20, 200⟩]

/-- Witness for C5: the defined RSI value 100 of `exHist5` is within [0, 100]. -/
theorem rsi_defined_in_range_witness : (0 : Rat) ≤ 100 ∧ (100 : Rat) ≤ 100 := by
  obtain ⟨ti, hti⟩ : ∃ ti, techOf (fun _ => (0 : Rat)) exHist5 = some ti := by
    rw [techOf_spec (fun _ => (0 : Rat)) exHist5 (by decide)]
    exact ⟨_, rfl⟩
  have hrsi : ti.rsi = some 100 := by
    rw [techOf_rsi _ _ _ hti]
    norm_num [closesOf, sortBars, sortBy, insertBy, rsiLatest, avgGainLoss,
      gainsOf, lossesOf, deltasOf, mean, lastN, exHist5]
  exact rsi_defined_in_range (fun _ => (0 : Rat)) exHist5 ti 100 hti hrsi

/-- C4 (amended): `bollinger_position` is always the computed quotient
`(close - lower) / (upper - lower)` at the latest bar; when the band width is
nonzero it is exactly 0 at the lower band and exactly 1 at the upper band.
(The zero-width case is NOT reported unavailable — see the counterexample.) -/
theorem bollinger_position_spec (sqrtQ : Rat → Rat) (history : List Bar) (ti : TechInd)
    (h : techOf sqrtQ history = some ti) :
    ti.bb_position = some ((latestClose (closesOf history) - lowerBand sqrtQ (closesOf history)) /
        (upperBand sqrtQ (closesOf history) - lowerBand sqrtQ (closesOf history))) ∧
    (upperBand sqrtQ (closesOf history) ≠ lowerBand sqrtQ (closesOf history) →
      (latestClose (closesOf history) = lowerBand sqrtQ (closesOf history) →
        ti.bb_position = some 0) ∧
      (latestClose (closesOf history) = upperBand sqrtQ (closesOf history) →
        ti.bb_position = some 1)) := by
  have hbb := techOf_bb sqrtQ history ti h
  refine ⟨hbb, fun hw => ⟨fun hc => ?_, fun hc => ?_⟩⟩
  · rw [hbb, hc]
    norm_num
  · rw [hbb, hc, div_self (sub_ne_zero.mpr hw)]

/-- 20-bar series for the C4 witness: mean 102, latest close 100, and with a
standard deviation of 1 the lower band is exactly 100 = the latest close. -/
def exHist4 : List Bar :=
  [⟨1, 102⟩, ⟨2, 102⟩, ⟨3, 102⟩, ⟨4, 102⟩, ⟨5, 102⟩, ⟨6, 102⟩, ⟨7, 102⟩,
   ⟨8, 102⟩, ⟨9, 102⟩, ⟨10, 102⟩, ⟨11, 102⟩, ⟨12, 102⟩, ⟨13, 102⟩, ⟨14, 102⟩,
   ⟨15, 102⟩, ⟨16, 102⟩, ⟨17, 102⟩, ⟨18, 102⟩, ⟨19, 104⟩, ⟨20, 100⟩]

/-- Witness for C4: at `exHist4` with unit standard deviation the latest close
sits on the lower band and `bb_position` is exactly 0. -/
theorem bollinger_position_spec_witness :
    latestClose (closesOf exHist4) = lowerBand (fun _ => (1 : Rat)) (closesOf exHist4) ∧
    ∃ ti, techOf (fun _ => (1 : Rat)) exHist4 = some ti ∧ ti.bb_position = some 0 := by
  have hc : latestClose (closesOf exHist4) = lowerBand (fun _ => (1 : Rat)) (closesOf exHist4) := by
    norm_num [latestClose, closesOf, sortBars, sortBy, insertBy, lowerBand,
      middleBand, stdDev20, mean, lastN, exHist4]
  have hw : upperBand (fun _ => (1 : Rat)) (closesOf exHist4) ≠
      lowerBand (fun _ => (1 : Rat)) (closesOf exHist4) := by
    norm_num [upperBand, lowerBand, middleBand, stdDev20, mean, lastN, closesOf,
      sortBars, sortBy, insertBy, exHist4]
  obtain ⟨ti, hti⟩ : ∃ ti, techOf (fun _ => (1 : Rat)) exHist4 = some ti := by
    rw [techOf_spec (fun _ => (1 : Rat)) exHist4 (by decide)]
    exact ⟨_, rfl⟩
  exact ⟨hc, ti, hti, ((bollinger_position_spec _ exHist4 ti hti).2 hw).1 hc⟩

/-- 20 constant bars: the 20-bar window has sample variance 0, hence standard
deviation exactly 0 and a Bollinger band width of exactly 0 (this is exact in
floating point too). -/
def constHist20 : List Bar :=
  [⟨1, 100⟩, ⟨2, 100⟩, ⟨3, 100⟩, ⟨4, 100⟩, ⟨5, 100⟩, ⟨6, 100⟩, ⟨7, 100⟩,
   ⟨8, 100⟩, ⟨9, 100⟩, ⟨10, 100⟩, ⟨11, 100⟩, ⟨12, 100⟩, ⟨13, 100⟩, ⟨14, 100⟩,
   ⟨15, 100⟩, ⟨16, 100⟩, ⟨17, 100⟩, ⟨18, 100⟩, ⟨19, 100⟩, ⟨20, 100⟩]

/-- Counterexample for C4 as stated: on a 20-bar constant series the band width
is zero, yet `bb_position` is still the value of the unguarded division (the
`pd.notna` guard at analyze_data.py line 326 only checks the bands themselves,
which are defined numbers here), not the `none`/unavailable sentinel.  In the
source the stored value is the float NaN produced by `0.0/0.0`; in the `Rat`
embedding the same unguarded division yields `0`.  In both cases the result is
a computed entry, not `None`. -/
theorem bollinger_zero_width_counterexample :
    upperBand (fun _ => (0 : Rat)) (closesOf constHist20) -
      lowerBand (fun _ => (0 : Rat)) (closesOf constHist20) = 0 ∧
    (techOf (fun _ => (0 : Rat)) constHist20).map TechInd.bb_position = some (some 0) := by
  constructor
  · norm_num [upperBand, lowerBand, middleBand, stdDev20]
  · rw [techOf_spec (fun _ => (0 : Rat)) constHist20 (by decide)]
    norm_num [latestClose, closesOf, sortBars, sortBy, insertBy, lowerBand,
      upperBand, middleBand, stdDev20, mean, lastN, constHist20]

/-- Per-ticker sentiment record (analyze_data.py lines 379-389): `newsScore`,
`buzz` and `sentimentChange` as read with the `.get(..., 0)` chains (a missing
field in the JSON is the value 0 here). -/
structure SentimentData where
  newsScore : Rat
  buzz : Rat
  sentimentChange : Rat
deriving DecidableEq

/-- One earnings report, reduced to the only field that feeds the composite
score: `surprisePercent` (analyze_data.py line 414).  `none` models a JSON
null (the source then skips the earnings component at line 463); a report
without the key gets the `.get` default 0, modelled by `some 0`.  The
`period`/`actual`/`estimate`/`surprise` fields feed only report text and the
wall-clock upcoming-earnings lookup (line 399), which no claim examines. -/
structure EarningsReport where
  surprisePercent : Option Rat
deriving DecidableEq

/-- The insider-transaction summary dict (analyze_data.py lines 444-451). -/
structure InsiderSummary where
  buy_count : Nat
  sell_count : Nat
  buy_volume : Rat
  sell_volume : Rat
  net_transactions : Int
  net_volume : Rat
deriving DecidableEq

/-- One iteration of the transaction loop (analyze_data.py lines 436-442):
a transaction is a buy iff its `change` is strictly positive, a sell iff
strictly negative; zero-change transactions update nothing. -/
def insiderStep (acc : Nat × Nat × Rat × Rat) (c : Rat) : Nat × Nat × Rat × Rat :=
  if 0 < c then (acc.1 + 1, acc.2.1, acc.2.2.1 + c, acc.2.2.2)
  else if c < 0 then (acc.1, acc.2.1 + 1, acc.2.2.1, acc.2.2.2 + |c|)
  else acc

/-- The `(buys, sells, buy_volume, sell_volume)` accumulators of the
transaction loop (analyze_data.py lines 431-442); a transaction is its
`change` value. -/
def insiderCounts (txs : List Rat) : Nat × Nat × Rat × Rat :=
  txs.foldl insiderStep (0, 0, 0, 0)

/-- The insider dict built at analyze_data.py lines 444-451, with
`net_transactions = buys - sells`. -/
def insiderSummary (txs : List Rat) : InsiderSummary :=
  let q := insiderCounts txs
  { buy_count := q.1
    sell_count := q.2.1
    buy_volume := q.2.2.1
    sell_volume := q.2.2.2
    net_transactions := (q.1 : Int) - (q.2.1 : Int)
    net_volume := q.2.2.1 - q.2.2.2 }

/-- The insider score component `min(10, max(-10, net_tx * 2))`
(analyze_data.py line 471). -/
def insiderScore (net : Int) : Rat := min 10 (max (-10) ((net : Rat) * 2))

/-- The per-ticker analysis dict of `analyze_finnhub_data` (analyze_data.py
lines 362-480), restricted to the keys the claims examine.  The `quote`
sub-dict (lines 366-376) and `upcoming_earnings` (lines 406-410, which
compares report dates against the wall clock) are stored but never feed the
composite score nor any generated idea, and are not modelled. -/
structure FinnhubTickerAnalysis where
  sentiment : Option SentimentData
  latest_earnings : Option EarningsReport
  insider : Option InsiderSummary
  finnhub_score : Rat
deriving DecidableEq

/-- The per-ticker body of `analyze_finnhub_data` (analyze_data.py lines
362-480).  `sent`/`earn`/`ins` are `none` when the ticker is absent from the
respective loaded dict.  `latest_earnings` is the head of the (unsorted)
earnings list when nonempty (lines 397-404); the insider summary exists only
for a nonempty transaction list (line 429).  The score accumulation mirrors
lines 453-478: each present component adds its value and bumps the component
count, and the score is the accumulated sum divided by the count, or 0 when
the count is 0. -/
def analyzeFinnhubTicker (sent : Option SentimentData)
    (earn : Option (List EarningsReport)) (ins : Option (List Rat)) :
    FinnhubTickerAnalysis :=
  let latest : Option EarningsReport :=
    match earn with
    | some reports => reports.head?
    | none => none
  let insider : Option InsiderSummary :=
    match ins with
    | some txs => if txs.isEmpty then none else some (insiderSummary txs)
    | none => none
  let acc1 : Rat × Nat :=
    match sent with
    | some s => (s.newsScore * 10 * min 1 (s.buzz / 1), 1)
    | none => (0, 0)
  let acc2 : Rat × Nat :=
    match latest with
    | some r =>
        match r.surprisePercent with
        | some p => (acc1.1 + min 10 (max (-10) p), acc1.2 + 1)
        | none => acc1
    | none => acc1
  let acc3 : Rat × Nat :=
    match insider with
    | some i => (acc2.1 + insiderScore i.net_transactions, acc2.2 + 1)
    | none => acc2
  { sentiment := sent
    latest_earnings := latest
    insider := insider
    finnhub_score := if 0 < acc3.2 then acc3.1 / (acc3.2 : Rat) else 0 }

theorem insiderCounts_go (txs : List Rat) : ∀ (b s : Nat) (bv sv : Rat),
    txs.foldl insiderStep (b, s, bv, sv) =
      (b + txs.countP (fun x => decide (0 < x)),
       s + txs.countP (fun x => decide (x < 0)),
       bv + (txs.filter (fun x => decide (0 < x))).sum,
       sv + ((txs.filter (fun x => decide (x < 0))).map (fun x => |x|)).sum) := by
  induction txs with
  | nil => intro b s bv sv; simp
  | cons c cs ih =>
      intro b s bv sv
      have hcount1 : ∀ (p : Rat → Bool) (k : Nat), p c = true →
          (c :: cs).countP p = cs.countP p + 1 := by
        intro p k hp
        rw [List.countP_cons, if_pos hp]
      have hcount0 : ∀ (p : Rat → Bool), p c = false →
          (c :: cs).countP p = cs.countP p := by
        intro p hp
        rw [List.countP_cons, hp]
        simp
      have hfilt1 : ∀ (p : Rat → Bool), p c = true →
          (c :: cs).filter p = c :: cs.filter p := by
        intro p hp
        rw [List.filter_cons, if_pos hp]
      have hfilt0 : ∀ (p : Rat → Bool), p c = false →
          (c :: cs).filter p = cs.filter p := by
        intro p hp
        rw [List.filter_cons, hp]
        simp
      by_cases h1 : 0 < c
      · have h2 : ¬ c < 0 := by linarith
        rw [List.foldl_cons]
        rw [show insiderStep (b, s, bv, sv) c = (b + 1, s, bv + c, sv) from by
          simp [insiderStep, h1]]
        rw [ih, hcount1 _ 0 (by simpa using h1), hcount0 _ (by simpa using h2),
          hfilt1 _ (by simpa using h1), hfilt0 _ (by simpa using h2)]
        refine congrArg₂ Prod.mk (by omega) (congrArg₂ Prod.mk rfl (congrArg₂ Prod.mk ?_ rfl))
        simp [List.sum_cons]
        ring
      · by_cases h2 : c < 0
        · rw [List.foldl_cons]
          rw [show insiderStep (b, s, bv, sv) c = (b, s + 1, bv, sv + |c|) from by
            simp [insiderStep, h1, h2]]
          rw [ih, hcount0 _ (by simpa using h1), hcount1 _ 0 (by simpa using h2),
            hfilt0 _ (by simpa using h1), hfilt1 _ (by simpa using h2)]
          refine congrArg₂ Prod.mk rfl (congrArg₂ Prod.mk (by omega)
            (congrArg₂ Prod.mk rfl ?_))
          simp [List.sum_cons]
          ring
        · rw [List.foldl_cons]
          rw [show insiderStep (b, s, bv, sv) c = (b, s, bv, sv) from by
            simp [insiderStep, h1, h2]]
          rw [ih, hcount0 _ (by simpa using h1), hcount0 _ (by simpa using h2),
            hfilt0 _ (by simpa using h1), hfilt0 _ (by simpa using h2)]

theorem insiderSummary_counts (txs : List Rat) :
    (insiderSummary txs).buy_count = txs.countP (fun x => decide (0 < x)) ∧
    (insiderSummary txs).sell_count = txs.countP (fun x => decide (x < 0)) := by
  unfold insiderSummary insiderCounts
  rw [insiderCounts_go]
  constructor <;> simp

/-- C7: `net_transactions = buy_count - sell_count`, where a transaction is a
buy iff its change is strictly positive and a sell iff strictly negative
(zero-change counted in neither), and the insider score component is
`min(10, max(-10, 2 * net_transactions))`; with only the insider component
present the composite score equals that component.  The last two conjuncts
check the spec scenario: 3 buys and 1 sell give `net_transactions = 2` and
component 4 (analyze_data.py lines 436-451, 468-473). -/
theorem insider_net_and_score_spec (c : Rat) (cs : List Rat) :
    (insiderSummary (c :: cs)).buy_count = (c :: cs).countP (fun x => decide (0 < x)) ∧
    (insiderSummary (c :: cs)).sell_count = (c :: cs).countP (fun x => decide (x < 0)) ∧
    (insiderSummary (c :: cs)).net_transactions =
      ((c :: cs).countP (fun x => decide (0 < x)) : Int) -
        ((c :: cs).countP (fun x => decide (x < 0)) : Int) ∧
    (analyzeFinnhubTicker none none (some (c :: cs))).finnhub_score =
      insiderScore (insiderSummary (c :: cs)).net_transactions ∧
    (insiderSummary [(1 : Rat), 2, 3, -1]).net_transactions = 2 ∧
    insiderScore 2 = 4 := by
  obtain ⟨hb, hs⟩ := insiderSummary_counts (c :: cs)
  refine ⟨hb, hs, ?_, ?_, ?_, ?_⟩
  · show ((insiderSummary (c :: cs)).buy_count : Int) - ((insiderSummary (c :: cs)).sell_count : Int) = _
    rw [hb, hs]
  · simp [analyzeFinnhubTicker]
  · norm_num [insiderSummary, insiderCounts, insiderStep]
  · norm_num [insiderScore]

theorem score_acc_spec (o1 o2 o3 : Option Rat) :
    (let a1 : Rat × Nat := match o1 with | some v => (v, 1) | none => (0, 0)
     let a2 : Rat × Nat := match o2 with | some v => (a1.1 + v, a1.2 + 1) | none => a1
     let a3 : Rat × Nat := match o3 with | some v => (a2.1 + v, a2.2 + 1) | none => a2
     if 0 < a3.2 then a3.1 / (a3.2 : Rat) else 0) =
    (let comps := [o1, o2, o3].filterMap id
     if comps = [] then 0 else comps.sum / (comps.length : Rat)) := by
  rcases o1 with _ | v1 <;> rcases o2 with _ | v2 <;> rcases o3 with _ | v3 <;>
    (simp [List.filterMap_cons, List.filterMap_nil]; try ring)

/-- C3: the composite finnhub score is the arithmetic mean of exactly the
present components — sentiment (present iff the ticker has sentiment data),
earnings (present iff the earnings list is nonempty and the head report's
surprise percentage is not null) and insider (present iff the transaction
list is nonempty) — and is exactly 0 when no component is present
(analyze_data.py lines 453-478). -/
theorem finnhub_score_mean_of_present (sent : Option SentimentData)
    (earn : Option (List EarningsReport)) (ins : Option (List Rat)) :
    (analyzeFinnhubTicker sent earn ins).finnhub_score =
      (let comps := ([
          sent.map (fun s => s.newsScore * 10 * min 1 (s.buzz / 1)),
          (match earn with
            | some reports => reports.head?
            | none => none).bind
            (fun r => r.surprisePercent.map (fun p => min 10 (max (-10) p))),
          (match ins with
            | some txs => if txs.isEmpty then none else some (insiderSummary txs)
            | none => none).map
            (fun (i : InsiderSummary) => insiderScore i.net_transactions)].filterMap id)
        if comps = [] then 0 else comps.sum / (comps.length : Rat)) := by
  refine Eq.trans ?_ (score_acc_spec _ _ _)
  rcases sent with _ | s <;>
    rcases earn with _ | (_ | ⟨⟨_ | p⟩, rs⟩) <;>
    rcases ins with _ | (_ | ⟨c, cs⟩) <;>
    rfl

/-- An investment idea record, restricted to the fields the claims examine:
`title`, `type`, `asset`, and `direction` (set only by the forex rule).  The
`rationale`, `risk_level`, `time_horizon`, `market`, `sector` and `metrics`
entries are free-text / report payload consumed by no claim. -/
structure Idea where
  title : String
  type : String
  asset : String
  direction : Option String
deriving DecidableEq

/-- One market of `self.markets` (analyze_data.py lines 91-96): the `index`
dict and the `stocks` dict. -/
structure MarketData where
  index : List (String × StockEntry)
  stocks : List (String × StockEntry)
deriving DecidableEq

/-- `info.get("sector", "Unknown")` (analyze_data.py line 543). -/
def sectorOf (e : StockEntry) : String := e.sector.getD "Unknown"

/-- `sectors[sector] = sectors.get(sector, 0) + 1` over an insertion-ordered
dict (analyze_data.py line 544). -/
def bumpCount (s : String) : List (String × Nat) → List (String × Nat)
  | [] => [(s, 1)]
  | (t, n) :: rest => if t = s then (t, n + 1) :: rest else (t, n) :: bumpCount s rest

/-- Sector counts of the top performers (analyze_data.py lines 540-544). -/
def sectorCounts (stocks : List (String × StockEntry)) (top : List (String × Perf)) :
    List (String × Nat) :=
  top.foldl (fun acc p =>
    match lookupKey p.1 stocks with
    | some e => bumpCount (sectorOf e) acc
    | none => acc) []

/-- The transient per-market analysis dict (analyze_data.py lines 554-562). -/
structure MarketAnalysis where
  index_performance : List (String × Perf)
  top_performers : List (String × Perf)
  bottom_performers : List (String × Perf)
  dominant_sector : String
  stocks_performance : List (String × Perf)
  technical_indicators : List (String × TechInd)
deriving DecidableEq

/-- `DataAnalyzer.analyze_market` (analyze_data.py lines 488-564): `none` when
the index performance or the stocks performance mapping is empty; otherwise
stocks sorted by descending return (stable, like Python `sorted` with
`reverse=True`), top/bottom 5, and the dominant sector (first maximal count in
dict insertion order, "Unknown" when no sectors were counted). -/
def analyze_market (sqrtQ : Rat → Rat) (m : MarketData) : Option MarketAnalysis :=
  let index_perf := analyze_stock_performance m.index 7
  if index_perf.isEmpty then none
  else
    let stocks_perf := analyze_stock_performance m.stocks 7
    let stocks_tech := analyze_technical_indicators sqrtQ m.stocks
    if stocks_perf.isEmpty then none
    else
      let sorted := sortBy (fun a b => decide (b.2.ret ≤ a.2.ret)) stocks_perf
      let top5 := sorted.take 5
      let bottom5 := if 5 ≤ sorted.length then lastN 5 sorted else []
      let counts := sectorCounts m.stocks top5
      let dominant :=
        ((firstMaxBy (fun a b => decide (b.2 < a.2)) counts).map Prod.fst).getD "Unknown"
      some ⟨index_perf, top5, bottom5, dominant, stocks_perf, stocks_tech⟩

/-- First key of the index dict (`list(...keys())[0]`, analyze_data.py line
590).  The default is unreachable for markets that passed `analyze_market`,
whose index performance (a submap of the index dict) is nonempty. -/
def firstKeyOf (l : List (String × StockEntry)) : String := (l.head?.map Prod.fst).getD ""

/-- Market-overview rule block (analyze_data.py lines 589-607): emitted iff
the index ticker has a performance entry (`"return" in index_perf`). -/
def marketOverviewIdeas (name : String) (m : MarketData) (a : MarketAnalysis) : List Idea :=
  match lookupKey (firstKeyOf m.index) a.index_performance with
  | some _ => [{ title := name ++ " Market Overview", type := "Market Analysis",
                 asset := firstKeyOf m.index, direction := none }]
  | none => []

/-- Top-performer rule block (analyze_data.py lines 609-645). -/
def topPerformerIdeas (name : String) (a : MarketAnalysis) : List Idea :=
  match a.top_performers.head? with
  | some (t, _) => [{ title := "Top " ++ name ++ " Performer: " ++ t, type := "Stock",
                      asset := t, direction := none }]
  | none => []

/-- Dominant-sector rule block (analyze_data.py lines 647-679). -/
def sectorIdeas (name : String) (a : MarketAnalysis) : List Idea :=
  if a.dominant_sector ≠ "Unknown" then
    [{ title := a.dominant_sector ++ " Sector Strength in " ++ name, type := "Sector",
       asset := a.dominant_sector, direction := none }]
  else []

/-- The three per-market rule blocks in order (analyze_data.py lines 588-679). -/
def marketIdeasFor (name : String) (m : MarketData) (a : MarketAnalysis) : List Idea :=
  marketOverviewIdeas name m a ++ topPerformerIdeas name a ++ sectorIdeas name a

/-- Market analysis plus the market rule blocks over all markets
(analyze_data.py lines 577-679); markets whose analysis fails are skipped. -/
def marketIdeas (sqrtQ : Rat → Rat) (markets : List (String × MarketData)) : List Idea :=
  (markets.map (fun p =>
    match analyze_market sqrtQ p.2 with
    | some a => marketIdeasFor p.1 p.2 a
    | none => [])).flatten

/-- The analyzer's loaded data (`self.markets` / `self.data`) restricted to
what `generate_investment_ideas` reads.  Each `Option` is `none` when no file
of that type was loaded.  `finnhub_quotes` is modelled by its key list (the
ticker universe, analyze_data.py line 359): its quote values feed only the
never-read `quote` sub-dict.  The source iterates `set(keys)`, whose order is
unspecified; the embedding uses the given list order, and no verified property
depends on that order. -/
structure AnalyzerInput where
  markets : List (String × MarketData)
  finnhub_quotes : Option (List String)
  finnhub_sentiment : Option (List (String × SentimentData))
  finnhub_earnings : Option (List (String × List EarningsReport))
  finnhub_insider : Option (List (String × List Rat))
  forex : Option (List (String × StockEntry))
  bonds : Option (List (String × StockEntry))
deriving DecidableEq

/-- `DataAnalyzer.analyze_finnhub_data` (analyze_data.py lines 334-486): if
any of the four required data types was not loaded, the empty mapping is
returned for every ticker (lines 345-356); otherwise each ticker of the
quotes dict is analyzed with whatever per-ticker data the other dicts hold. -/
def analyze_finnhub_data (input : AnalyzerInput) :
    List (String × FinnhubTickerAnalysis) :=
  match input.finnhub_quotes, input.finnhub_sentiment, input.finnhub_earnings,
      input.finnhub_insider with
  | some qs, some sm, some em, some im =>
      qs.map (fun t =>
        (t, analyzeFinnhubTicker (lookupKey t sm) (lookupKey t em) (lookupKey t im)))
  | _, _, _, _ => []

/-- Alternative-data-pick rule block (analyze_data.py lines 686-727): the
first maximal-score ticker among those with score > 5 (the
`'finnhub_score' in data` test at line 688 is always true, the score being
set unconditionally at lines 475-478), skipped when that ticker already
appears as an `asset` in the ideas list. -/
def altPickIdeas (fa : List (String × FinnhubTickerAnalysis)) (prior : List Idea) :
    List Idea :=
  let high := fa.filter (fun p => decide (5 < p.2.finnhub_score))
  match firstMaxBy (fun x b => decide (b.2.finnhub_score < x.2.finnhub_score)) high with
  | none => []
  | some (t, _) =>
      if prior.any (fun i => i.asset == t) then []
      else [{ title := "Alternative Data Pick: " ++ t, type := "Stock", asset := t,
              direction := none }]

/-- `net_transactions` with an unreachable default (the caller filters for
tickers that have an insider summary). -/
def netOfD (p : String × FinnhubTickerAnalysis) : Int :=
  (p.2.insider.map InsiderSummary.net_transactions).getD 0

/-- Insider-activity rule block (analyze_data.py lines 729-751): tickers with
an insider summary and net transactions > 2; skipped when an idea titled
"Insider Activity..." already exists; picks the first maximal net. -/
def insiderActivityIdeas (fa : List (String × FinnhubTickerAnalysis)) (prior : List Idea) :
    List Idea :=
  let insiders := fa.filter (fun p =>
    match p.2.insider with
    | some s => decide (2 < s.net_transactions)
    | none => false)
  if insiders.isEmpty then []
  else if prior.any (fun i => i.title.startsWith "Insider Activity") then []
  else
    match firstMaxBy (fun x b => decide (netOfD b < netOfD x)) insiders with
    | some (t, _) => [{ title := "Insider Activity: " ++ t, type := "Stock", asset := t,
                        direction := none }]
    | none => []

/-- The two Finnhub rule blocks, entered only when the analysis mapping is
nonempty (`if finnhub_analysis:`, analyze_data.py line 685); the insider block
sees the ideas list including a just-appended alternative-data pick. -/
def finnhubIdeas (fa : List (String × FinnhubTickerAnalysis)) (prior : List Idea) :
    List Idea :=
  if fa.isEmpty then []
  else
    let a := altPickIdeas fa prior
    a ++ insiderActivityIdeas fa (prior ++ a)

/-- Ticker → display-name map for forex pairs (analyze_data.py lines 762-770). -/
def forexName (t : String) : String :=
  (lookupKey t [("EURUSD=X", "EUR/USD"), ("GBPUSD=X", "GBP/USD"), ("USDJPY=X", "USD/JPY"),
    ("USDCAD=X", "USD/CAD"), ("AUDUSD=X", "AUD/USD"), ("USDCNY=X", "USD/CNY")]).getD t

/-- `max(forex_perf.items(), key=lambda x: x[1]["return"])`
(analyze_data.py line 758): the currency pair of greatest return. -/
def strongestPair (perf : List (String × Perf)) : Option (String × Perf) :=
  firstMaxBy (fun x b => decide (b.2.ret < x.2.ret)) perf

/-- Forex rule block (analyze_data.py lines 753-787): at most one idea, only
when forex data is loaded, some pair has 7-bar performance, and the strongest
pair moved more than 1% in absolute value; direction is bullish iff the
return is positive, else bearish. -/
def forexIdeas : Option (List (String × StockEntry)) → List Idea
  | none => []
  | some fdata =>
      match strongestPair (analyze_stock_performance fdata 7) with
      | none => []
      | some (t, p) =>
          if 1 < |p.ret| then
            [{ title := "Forex Opportunity: " ++ forexName t, type := "Forex",
               asset := forexName t,
               direction := some (if 0 < p.ret then "bullish" else "bearish") }]
          else []

/-- Bond rule block (analyze_data.py lines 789-811). -/
def bondIdeas : Option (List (String × StockEntry)) → List Idea
  | none => []
  | some bdata =>
      match lookupKey "^TNX" (analyze_stock_performance bdata 7) with
      | some ten =>
          if 3 < |ten.ret| then
            [{ title := "Bond Market Development", type := "Bonds",
               asset := "10-Year Treasury", direction := none }]
          else []
      | none => []

/-- `DataAnalyzer.generate_investment_ideas` (analyze_data.py lines 566-815):
the rule blocks run in a fixed order, each appending its ideas. -/
def generate_investment_ideas (sqrtQ : Rat → Rat) (input : AnalyzerInput) : List Idea :=
  let i1 := marketIdeas sqrtQ input.markets
  let i2 := i1 ++ finnhubIdeas (analyze_finnhub_data input) i1
  let i3 := i2 ++ forexIdeas input.forex
  i3 ++ bondIdeas input.bonds

theorem no_forex_marketIdeasFor (name : String) (m : MarketData) (a : MarketAnalysis) :
    (marketIdeasFor name m a).filter (fun i => i.type == "Forex") = [] := by
  simp only [marketIdeasFor, marketOverviewIdeas, topPerformerIdeas, sectorIdeas,
    List.filter_append]
  (repeat' split) <;> simp

theorem marketIdeas_no_forex (sqrtQ : Rat → Rat) (markets : List (String × MarketData)) :
    (marketIdeas sqrtQ markets).filter (fun i => i.type == "Forex") = [] := by
  induction markets with
  | nil => rfl
  | cons p ms ih =>
      simp only [marketIdeas, List.map_cons, List.flatten_cons, List.filter_append] at ih ⊢
      rw [ih, List.append_nil]
      split
      · exact no_forex_marketIdeasFor _ _ _
      · rfl

theorem no_forex_altPickIdeas (fa : List (String × FinnhubTickerAnalysis))
    (prior : List Idea) :
    (altPickIdeas fa prior).filter (fun i => i.type == "Forex") = [] := by
  simp only [altPickIdeas]
  (repeat' split) <;> simp

theorem no_forex_insiderActivityIdeas (fa : List (String × FinnhubTickerAnalysis))
    (prior : List Idea) :
    (insiderActivityIdeas fa prior).filter (fun i => i.type == "Forex") = [] := by
  simp only [insiderActivityIdeas]
  (repeat' split) <;> simp

theorem no_forex_finnhubIdeas (fa : List (String × FinnhubTickerAnalysis))
    (prior : List Idea) :
    (finnhubIdeas fa prior).filter (fun i => i.type == "Forex") = [] := by
  simp only [finnhubIdeas]
  split
  · rfl
  · rw [List.filter_append, no_forex_altPickIdeas, no_forex_insiderActivityIdeas]
    rfl

theorem no_forex_bondIdeas (o : Option (List (String × StockEntry))) :
    (bondIdeas o).filter (fun i => i.type == "Forex") = [] := by
  simp only [bondIdeas]
  (repeat' split) <;> simp

theorem filter_forexIdeas (o : Option (List (String × StockEntry))) :
    (forexIdeas o).filter (fun i => i.type == "Forex") = forexIdeas o := by
  simp only [forexIdeas]
  (repeat' split) <;> simp

/-- C10: if any of the four finnhub data types (quotes, sentiment, earnings,
insider) was not loaded, `analyze_finnhub_data` returns the empty mapping for
every ticker, and consequently the alternative-data-pick and insider-activity
rule blocks contribute no ideas: generation reduces to the market, forex and
bond blocks (analyze_data.py lines 345-356, 685). -/
theorem finnhub_missing_type_empty (sqrtQ : Rat → Rat) (input : AnalyzerInput)
    (h : input.finnhub_quotes = none ∨ input.finnhub_sentiment = none ∨
      input.finnhub_earnings = none ∨ input.finnhub_insider = none) :
    analyze_finnhub_data input = [] ∧
    generate_investment_ideas sqrtQ input =
      marketIdeas sqrtQ input.markets ++ forexIdeas input.forex ++
        bondIdeas input.bonds := by
  have hempty : analyze_finnhub_data input = [] := by
    unfold analyze_finnhub_data
    rcases hq : input.finnhub_quotes with _ | qs
    · rfl
    rcases hs : input.finnhub_sentiment with _ | sm
    · rfl
    rcases he : input.finnhub_earnings with _ | em
    · rfl
    rcases hi : input.finnhub_insider with _ | im
    · rfl
    rw [hq, hs, he, hi] at h
    simp at h
  refine ⟨hempty, ?_⟩
  simp only [generate_investment_ideas, hempty]
  rw [show finnhubIdeas [] (marketIdeas sqrtQ input.markets) = [] from rfl]
  simp [List.append_assoc]

/-- Input for the C10 witness: the insider data type is missing while the
other three are present (with nonempty data for the ticker "AAPL"). -/
def exInput10 : AnalyzerInput :=
  { markets := []
    finnhub_quotes := some ["AAPL"]
    finnhub_sentiment := some [("AAPL", ⟨4/5, 3/2, 0⟩)]
    finnhub_earnings := some [("AAPL", [⟨some 5⟩])]
    finnhub_insider := none
    forex := none
    bonds := none }

/-- Witness for C10: with `finnhub_insider` missing, the analysis mapping is
empty and generation contains no finnhub-block ideas even though "AAPL" has
full sentiment and earnings data. -/
theorem finnhub_missing_type_empty_witness :
    analyze_finnhub_data exInput10 = [] ∧
    generate_investment_ideas (fun _ => (0 : Rat)) exInput10 =
      marketIdeas (fun _ => (0 : Rat)) exInput10.markets ++ forexIdeas exInput10.forex ++
        bondIdeas exInput10.bonds :=
  finnhub_missing_type_empty (fun _ => (0 : Rat)) exInput10 (Or.inr (Or.inr (Or.inr rfl)))

/-- C8: the generated list contains a Forex-typed idea exactly when forex data
is loaded and the strongest pair (greatest 7-bar return) moved strictly more
than 1% in absolute value; in that case it contains exactly one such idea,
with direction "bullish" when the return is positive and "bearish" when
negative; no other rule block ever emits a Forex-typed idea
(analyze_data.py lines 753-787). -/
theorem forex_idea_iff (sqrtQ : Rat → Rat) (input : AnalyzerInput) :
    (generate_investment_ideas sqrtQ input).filter (fun i => i.type == "Forex") =
      forexIdeas input.forex ∧
    (match input.forex with
     | none => forexIdeas input.forex = []
     | some fdata =>
        match strongestPair (analyze_stock_performance fdata 7) with
        | none => forexIdeas input.forex = []
        | some (t, p) =>
            if 1 < |p.ret| then
              forexIdeas input.forex =
                [{ title := "Forex Opportunity: " ++ forexName t, type := "Forex",
                   asset := forexName t,
                   direction := some (if 0 < p.ret then "bullish" else "bearish") }]
            else forexIdeas input.forex = []) := by
  constructor
  · unfold generate_investment_ideas
    simp only [List.filter_append]
    rw [marketIdeas_no_forex, no_forex_finnhubIdeas, no_forex_bondIdeas, filter_forexIdeas]
    simp
  · rcases hf : input.forex with _ | fdata
    · rfl
    · show (match strongestPair (analyze_stock_performance fdata 7) with
        | none => forexIdeas (some fdata) = []
        | some (t, p) =>
            if 1 < |p.ret| then
              forexIdeas (some fdata) =
                [{ title := "Forex Opportunity: " ++ forexName t, type := "Forex",
                   asset := forexName t,
                   direction := some (if 0 < p.ret then "bullish" else "bearish") }]
            else forexIdeas (some fdata) = [])
      rcases hm : strongestPair (analyze_stock_performance fdata 7) with _ | ⟨t, p⟩
      · simp only [forexIdeas, hm]
      · simp only [forexIdeas, hm]
        split_ifs with h1 <;> rfl

/-- Input for the C8 witness, first scenario: one forex pair whose 7-bar
return is -1.5%. -/
def exInput8a : AnalyzerInput :=
  { markets := []
    finnhub_quotes := none
    finnhub_sentiment := none
    finnhub_earnings := none
    finnhub_insider := none
    forex := some [("EURUSD=X",
      ⟨[⟨1, 100⟩, ⟨2, 100⟩, ⟨3, 100⟩, ⟨4, 100⟩, ⟨5, 100⟩, ⟨6, 100⟩, ⟨7, 197/2⟩], none⟩)]
    bonds := none }

/-- Input for the C8 witness, second scenario: one forex pair whose 7-bar
return is +0.5% (below the 1% threshold). -/
def exInput8b : AnalyzerInput :=
  { markets := []
    finnhub_quotes := none
    finnhub_sentiment := none
    finnhub_earnings := none
    finnhub_insider := none
    forex := some [("GBPUSD=X",
      ⟨[⟨1, 100⟩, ⟨2, 100⟩, ⟨3, 100⟩, ⟨4, 100⟩, ⟨5, 100⟩, ⟨6, 100⟩, ⟨7, 201/2⟩], none⟩)]
    bonds := none }

/-- Witness for C8: a -1.5% pair return yields exactly one Forex idea, with
direction "bearish"; a +0.5% return yields none. -/
theorem forex_idea_iff_witness :
    (generate_investment_ideas (fun _ => (0 : Rat)) exInput8a).filter
        (fun i => i.type == "Forex") =
      [{ title := "Forex Opportunity: EUR/USD", type := "Forex", asset := "EUR/USD",
         direction := some "bearish" }] ∧
    (generate_investment_ideas (fun _ => (0 : Rat)) exInput8b).filter
        (fun i => i.type == "Forex") = [] := by
  have hfa : forexIdeas exInput8a.forex =
      [{ title := "Forex Opportunity: EUR/USD", type := "Forex", asset := "EUR/USD",
         direction := some "bearish" }] := by
    norm_num [forexIdeas, strongestPair, firstMaxBy, analyze_stock_performance, perfOf,
      lastN, sortBars, sortBy, insertBy, forexName, lookupKey, exInput8a, abs,
      List.filterMap_cons, List.filterMap_nil, Option.map_some', Option.map_none']
    rfl
  have hfb : forexIdeas exInput8b.forex = [] := by
    norm_num [forexIdeas, strongestPair, firstMaxBy, analyze_stock_performance, perfOf,
      lastN, sortBars, sortBy, insertBy, forexName, lookupKey, exInput8b, abs,
      List.filterMap_cons, List.filterMap_nil, Option.map_some', Option.map_none']
  exact ⟨((forex_idea_iff (fun _ => (0 : Rat)) exInput8a).1).trans hfa,
    ((forex_idea_iff (fun _ => (0 : Rat)) exInput8b).1).trans hfb⟩
